import Mathlib
/-!
Shallow embedding of the YieldMapper backend (src/app.py): the dividend
aggregation for market A (`get_a_dividend`), the HK dividend text parser
(`parse_hkd`), the HKD/CNY rate lookup (`get_hkd_cny_rate`), the symbol
caches (`load_a_cache`, `load_hk_cache`), the cached-search matching rules
of `search_a_stock` / `search_hk_stock`, and the request orchestrator
(`search_stock`).

Conventions: Python floats are modelled as rationals (`ℚ`); dates and
timestamps as integers (days for the dividend code, seconds for the cache
TTL code); `pd.to_numeric(..., errors=coerce)` results are `Option ℚ`
(`none` = NaN) and `pd.to_datetime(..., errors=coerce)` results are
`Option ℤ` (`none` = NaT); an upstream fetch that raises is an `Option`
that is `none`.
-/
/-- Python `round(x, 6)` at the integer step: round half to even. -/
def roundHalfEven (q : ℚ) : ℤ :=
  let f := ⌊q⌋
  let r := q - f
  if r < 1/2 then f
  else if 1/2 < r then f + 1
  else if Even f then f else f + 1

/-- Python `round(x, 6)`: round to 6 decimal places, ties to even. -/
def round6 (q : ℚ) : ℚ :=
  (roundHalfEven (q * 1000000) : ℚ) / 1000000

/-- One row of the `stock_dividend_cninfo` frame, after the pandas coercions
the code applies: column 0 (announcement date) parsed by `pd.to_datetime`
(`none` = NaT), column 4 (per-10-shares payout) parsed by `pd.to_numeric`
(`none` = NaN, later `fillna(0)`), column 7 (payment date) parsed by
`pd.to_datetime` (`none` = NaT). -/
structure ARow where
  announceDate : Option ℤ
  amountPer10 : Option ℚ
  payDate : Option ℤ
deriving DecidableEq

/-- The raw frame handed to `get_a_dividend`: its rows plus the number of
columns of the provider response (the code checks `len(cols) < 5` and
`len(cols) > 7`). -/
structure ADivInput where
  rows : List ARow
  ncols : ℕ
deriving DecidableEq

/-- Return value of `get_a_dividend`: `(amount, dates, error)`. -/
structure ADivResult where
  amount : Option ℚ
  dates : List ℤ
  error : Option String
deriving DecidableEq

/-- `df[div_col] = pd.to_numeric(...).fillna(0)`: the per-10-shares amount
with NaN coerced to 0. -/
def amt (r : ARow) : ℚ := r.amountPer10.getD 0

/-- `df[df[date_col] >= one_year_ago]` row predicate: announcement date
parsed and not older than 365 days before `now` (NaT compares false). -/
def inWindow (now : ℤ) (r : ARow) : Bool :=
  match r.announceDate with
  | some d => decide (now - 365 ≤ d)
  | none => false

/-- `cash_rows = df[df[div_col] > 0]` then
`cash_rows[pay_date_col].dropna()`: parsed payment dates of the rows with a
positive cash amount, in provider row order. -/
def cashPayDates (rows : List ARow) : List ℤ :=
  (rows.filter (fun r => 0 < amt r)).filterMap (fun r => r.payDate)

/-- `.tail(2)[::-1]`: the last two elements in list order, reversed. -/
def tail2rev (l : List ℤ) : List ℤ :=
  (l.drop (l.length - 2)).reverse

/-- The `dates` list built by `get_a_dividend`: present only when the frame
has a column 7 (`pay_date_col`), and then the reversed tail-2 of the parsed
payment dates of positive-amount rows. -/
def datesOf (i : ADivInput) : List ℤ :=
  if 7 < i.ncols then tail2rev (cashPayDates i.rows) else []

/-- `float(df_recent[div_col].sum())`: the per-10 amounts summed over the
rows inside the trailing-365-day window. -/
def windowSum (now : ℤ) (i : ADivInput) : ℚ :=
  ((i.rows.filter (inWindow now)).map amt).sum

/-- `float(df.head(2)[div_col].sum())`: the per-10 amounts summed over the
first two rows of the raw frame. -/
def head2Sum (i : ADivInput) : ℚ :=
  ((i.rows.take 2).map amt).sum

/-- `get_a_dividend` (src/app.py lines 252-305), with the upstream fetch
abstracted as its already-coerced result (`none` = the fetch raised or the
frame was None/empty, both yielding the no-record error). -/
def get_a_dividend (now : ℤ) (inp : Option ADivInput) : ADivResult :=
  match inp with
  | none => ⟨none, [], some "无分红记录"⟩
  | some i =>
    if i.rows = [] then ⟨none, [], some "无分红记录"⟩
    else if i.ncols < 5 then ⟨none, [], some "数据列数异常"⟩
    else if i.rows.filter (inWindow now) ≠ [] ∧ 0 < windowSum now i then
      ⟨some (round6 (windowSum now i / 10)), datesOf i, none⟩
    else if 0 < head2Sum i then
      ⟨some (round6 (head2Sum i / 10)), datesOf i, none⟩
    else ⟨none, datesOf i, some "近期现金分红金额为 0"⟩

/-- A character matched by the regex class `[\d.]`. -/
def isDigitOrDot (c : Char) : Bool := c.isDigit || c = '.'

/-- `re.search` for the pattern 港[币幣]([\d.]+): leftmost occurrence of the
HKD glyph pair followed by at least one digit-or-dot character; returns the
captured greedy run. -/
def hkdScan : List Char → Option (List Char)
  | [] => none
  | c :: rest =>
    if c = '港' then
      match rest with
      | c2 :: rest2 =>
        if c2 = '币' ∨ c2 = '幣' then
          match rest2.takeWhile isDigitOrDot with
          | [] => hkdScan rest
          | cap => some cap
        else hkdScan rest
      | [] => none
    else hkdScan rest

/-- `re.search` for the pattern 派息([\d.]+): leftmost occurrence of the
payout word followed by at least one digit-or-dot character; returns the
captured greedy run. -/
def paixiScan : List Char → Option (List Char)
  | [] => none
  | c :: rest =>
    if c = '派' then
      match rest with
      | c2 :: rest2 =>
        if c2 = '息' then
          match rest2.takeWhile isDigitOrDot with
          | [] => paixiScan rest
          | cap => some cap
        else paixiScan rest
      | [] => none
    else paixiScan rest

/-- Value of a run of decimal digit characters. -/
def digitsVal (cs : List Char) : ℕ :=
  cs.foldl (fun a c => 10 * a + (c.toNat - 48)) 0

/-- Python `float` applied to a captured `[\d.]+` group: defined (`some`)
exactly when the group has at most one dot and at least one digit, in which
case it is the usual decimal value; otherwise `float` raises (`none`). -/
def pyFloat (cs : List Char) : Option ℚ :=
  match cs.splitOn '.' with
  | [intPart] => if cs.any Char.isDigit then some (digitsVal intPart) else none
  | [intPart, fracPart] =>
    if cs.any Char.isDigit then
      some ((digitsVal intPart : ℚ) + (digitsVal fracPart : ℚ) / 10 ^ fracPart.length)
    else none
  | _ => none

/-- `_parse_hkd` (src/app.py lines 310-321): prefer the amount following
the HKD glyph (simplified 港币 or traditional 港幣), else the amount
following the payout word 派息, else 0.0.  `none` models `float` raising on
a malformed capture such as `1.2.3`. -/
def parse_hkd (text : String) : Option ℚ :=
  match hkdScan text.toList with
  | some cap => pyFloat cap
  | none =>
    match paixiScan text.toList with
    | some cap => pyFloat cap
    | none => some 0

/-- The recent-dates computation as the C8 claim words it: sort the parsed
payment dates of positive-amount rows chronologically, keep the last 2, and
reverse to most-recent-first. -/
def claimedDates (rows : List ARow) : List ℤ :=
  tail2rev ((cashPayDates rows).insertionSort (· ≤ ·))

/-- A `(code, name)` entry of an on-disk symbol cache. -/
structure CacheEntry where
  code : String
  name : String
deriving DecidableEq

/-- Character-wise: the second list starts with the first. -/
def lcStarts : List Char → List Char → Bool
  | [], _ => true
  | _ :: _, [] => false
  | a :: as, b :: bs => a = b && lcStarts as bs

/-- Python `needle in hay` / pandas `str.contains(..., regex=False)`:
substring containment. -/
def lcHas (needle : List Char) : List Char → Bool
  | [] => needle.isEmpty
  | c :: rest => lcStarts needle (c :: rest) || lcHas needle rest

/-- The row filter of `search_a_stock`'s cached name search (src/app.py
lines 118-121): the code equals the query exactly, or the name contains
the query as a case-sensitive substring. -/
def a_match (query : String) (row : CacheEntry) : Bool :=
  decide (row.code = query) || lcHas query.toList row.name.toList

/-- The row filter of `search_hk_stock`'s cached name search (src/app.py
lines 222-224): the name contains the query as a case-sensitive
substring — there is no code-equality disjunct. -/
def hk_match (query : String) (row : CacheEntry) : Bool :=
  lcHas query.toList row.name.toList

/-- `matched.iloc[0]` over the filtered market-A cache: the first matching
row in cache order. -/
def a_cache_match (cache : List CacheEntry) (query : String) : Option CacheEntry :=
  cache.find? (a_match query)

/-- `matched.iloc[0]` over the filtered HK cache: the first matching row in
cache order. -/
def hk_cache_match (cache : List CacheEntry) (query : String) : Option CacheEntry :=
  cache.find? (hk_match query)

/-- `CACHE_TTL = 24 * 3600` seconds. -/
def CACHE_TTL : ℤ := 24 * 3600

/-- `_load_a_cache` (src/app.py lines 71-85) as a function of the cache
file state (`none` = file missing, `some (mtime, content)` otherwise), the
current time in seconds, and the list the upstream snapshot fetch would
return.  Result: the returned list, the cache-file state afterwards, and
the number of upstream fetch calls made. -/
def load_a_cache (now : ℤ) (file : Option (ℤ × List CacheEntry))
    (fetch : List CacheEntry) :
    List CacheEntry × Option (ℤ × List CacheEntry) × ℕ :=
  match file with
  | some (mtime, content) =>
    if now - mtime < CACHE_TTL then (content, file, 0)
    else (fetch, some (now, fetch), 1)
  | none => (fetch, some (now, fetch), 1)

/-- The refetch loop of `_load_hk_cache`: try `stock_hk_spot_em`, then
`stock_hk_main_board_spot_em` (each `none` when it raises, returns an
empty/None frame, or lacks the code column); persist and return the first
success, else return an empty list without persisting. -/
def hkRefetch (now : ℤ) (file : Option (ℤ × List CacheEntry))
    (fetch1 fetch2 : Option (List CacheEntry)) :
    List CacheEntry × Option (ℤ × List CacheEntry) × ℕ :=
  match fetch1 with
  | some l => (l, some (now, l), 1)
  | none =>
    match fetch2 with
    | some l => (l, some (now, l), 2)
    | none => ([], file, 2)

/-- `_load_hk_cache` (src/app.py lines 176-202): same TTL gate as
`load_a_cache`, with the two-endpoint refetch loop. -/
def load_hk_cache (now : ℤ) (file : Option (ℤ × List CacheEntry))
    (fetch1 fetch2 : Option (List CacheEntry)) :
    List CacheEntry × Option (ℤ × List CacheEntry) × ℕ :=
  match file with
  | some (mtime, content) =>
    if now - mtime < CACHE_TTL then (content, file, 0)
    else hkRefetch now file fetch1 fetch2
  | none => hkRefetch now file fetch1 fetch2

/-- One cell of the `fx_spot_quote` frame: its `str(v)` text and the result
of `float(v)` (`none` = raises). -/
structure FxCell where
  text : String
  val : Option ℚ
deriving DecidableEq

/-- `' '.join(str(v) for v in row.values)`. -/
def rowStr (row : List FxCell) : String :=
  String.intercalate " " (row.map FxCell.text)

/-- `'HKD' in row_str or '港元' in row_str or '港币' in row_str`. -/
def mentionsHKD (s : String) : Bool :=
  lcHas "HKD".toList s.toList || lcHas "港元".toList s.toList ||
    lcHas "港币".toList s.toList

/-- The inner loop of rate method 1: the first cell whose value parses as a
float within [0.5, 1.5], returned rounded to 6 decimals; parse failures and
out-of-range values are skipped. -/
def scanFxRow : List FxCell → Option ℚ
  | [] => none
  | c :: row =>
    match c.val with
    | some r => if 1/2 ≤ r ∧ r ≤ 3/2 then some (round6 r) else scanFxRow row
    | none => scanFxRow row

/-- Rate method 1 (src/app.py lines 38-52): scan the spot-quote rows; for
each row whose joined text mentions HKD, scan its values; a mentioning row
without an in-range value falls through to the next row. -/
def fx_spot_scan : List (List FxCell) → Option ℚ
  | [] => none
  | row :: rows =>
    if mentionsHKD (rowStr row) then
      match scanFxRow row with
      | some r => some r
      | none => fx_spot_scan rows
    else fx_spot_scan rows

/-- One column of the `currency_boc_sina` frame: the header text and
`pd.to_numeric(df.iloc[-1][col], errors=coerce)` (`none` = NaN). -/
structure BankCol where
  header : String
  lastVal : Option ℚ
deriving DecidableEq

/-- Rate method 2 (src/app.py lines 55-64): the first mid-rate/benchmark
column whose latest value is a number strictly greater than 10, divided by
100 and rounded to 6 decimals; a column failing the guard is skipped. -/
def boc_scan : List BankCol → Option ℚ
  | [] => none
  | c :: cols =>
    if lcHas "中间价".toList c.header.toList = true ∨
        lcHas "基准价".toList c.header.toList = true then
      match c.lastVal with
      | some v => if 10 < v then some (round6 (v / 100)) else boc_scan cols
      | none => boc_scan cols
    else boc_scan cols

/-- `get_hkd_cny_rate` (src/app.py lines 35-66): `none` inputs model an
upstream call that raises or returns an empty/None frame. -/
def get_hkd_cny_rate (spot : Option (List (List FxCell)))
    (bank : Option (List BankCol)) : ℚ :=
  match spot.bind fx_spot_scan with
  | some r => r
  | none =>
    match bank.bind boc_scan with
    | some r => r
    | none => 231/250

/-- The bank-rate step as the C6 claim words it: take the latest value of
the first mid-rate/benchmark column, divide it by 100 only if it exceeds
10, and round the result to 6 decimals. -/
def claimed_boc_scan (cols : List BankCol) : Option ℚ :=
  (cols.find? (fun c =>
      lcHas "中间价".toList c.header.toList || lcHas "基准价".toList c.header.toList)).bind
    (fun c => c.lastVal.map (fun v => round6 (if 10 < v then v / 100 else v)))

/-- Python `str.strip()`: drop whitespace from both ends. -/
def pyStrip (s : String) : String :=
  ⟨((s.toList.dropWhile Char.isWhitespace).reverse.dropWhile
      Char.isWhitespace).reverse⟩

/-- The `{symbol, name, current_price}` object produced by the resolvers
`search_a_stock` / `search_hk_stock` (`None` = not-found). -/
structure StockInfo where
  symbol : String
  name : String
  current_price : Option ℚ
deriving DecidableEq

/-- The per-query result object assembled by `search_stock`. -/
structure QueryResult where
  symbol : String
  name : String
  market : String
  current_price : Option ℚ
  dividend : Option ℚ
  dividend_dates : List String
  dividend_currency : String
  hkd_rate : Option ℚ
  errors : List String
deriving DecidableEq

/-- What the `/api/search` route returns: a populated result (HTTP 200), a
request-level error object (the HK not-found branch), or an HTTP 400 bad
request (blank query). -/
inductive SearchResponse where
  | ok (r : QueryResult)
  | err (msg : String)
  | badRequest (msg : String)
deriving DecidableEq

/-- `search_stock` (src/app.py lines 386-448), parameterised over the
collaborators it calls: the two resolvers, the two dividend aggregators
(returning `(amount, dates, error-message)`), and the rate lookup. -/
def search_stock (searchA searchHK : String → Option StockInfo)
    (getADiv getHKDiv : String → Option ℚ × List String × String)
    (getRate : ℚ) (query market : String) : SearchResponse :=
  let q := pyStrip query
  if q = "" then .badRequest "请输入股票名称或代码"
  else
    let base : QueryResult :=
      ⟨q, "", market, none, none, [],
        if market = "A" then "CNY" else "HKD", none, []⟩
    if market = "A" then
      let r1 : QueryResult :=
        match searchA q with
        | some info =>
          { base with symbol := info.symbol, name := info.name,
                      current_price := info.current_price }
        | none =>
          { base with errors :=
              base.errors ++ ["未找到 A 股: " ++ q ++ "，将以代码方式尝试获取分红"] }
      match getADiv r1.symbol with
      | (some d, dates, _) =>
        .ok { r1 with dividend := some d, dividend_dates := dates }
      | (none, dates, msg) =>
        .ok { r1 with dividend_dates := dates,
                      errors := r1.errors ++ ["分红获取失败: " ++ msg] }
    else
      match searchHK q with
      | none => .err ("未找到港股「" ++ q ++ "」，请输入股票代码（如 03968）")
      | some info =>
        let r1 : QueryResult :=
          { base with symbol := info.symbol, name := info.name,
                      current_price := info.current_price }
        let r2 : QueryResult :=
          match getHKDiv r1.symbol with
          | (some d, dates, _) =>
            { r1 with dividend := some d, dividend_dates := dates }
          | (none, dates, msg) =>
            { r1 with dividend_dates := dates,
                      errors := r1.errors ++ ["港股分红获取失败: " ++ msg] }
        .ok { r2 with hkd_rate := some getRate }

theorem roundHalfEven_intCast (n : ℤ) : roundHalfEven (n : ℚ) = n := by
  simp only [roundHalfEven, Int.floor_intCast, sub_self]
  norm_num

/-- Evaluation rule for `round6` at a point that is an exact multiple of
`10 ^ -6`: no rounding happens. -/
theorem round6_eq (q : ℚ) (n : ℤ) (h : q * 1000000 = (n : ℚ)) :
    round6 q = (n : ℚ) / 1000000 := by
  rw [round6, h, roundHalfEven_intCast]

theorem windowSum_ne_nil {now : ℤ} {i : ADivInput} (h : 0 < windowSum now i) :
    i.rows.filter (inWindow now) ≠ [] := by
  intro hnil
  rw [windowSum, hnil] at h
  simp at h

/-- C1: for market A, `get_a_dividend` sums column 4 over exactly the rows
whose announcement date lies within the trailing 365 days from now
(non-numeric amounts coerced to 0), and when that sum is positive returns
it divided by 10 and rounded to 6 decimal places. -/
theorem get_a_dividend_window (now : ℤ) (i : ADivInput)
    (hne : i.rows ≠ []) (hc : 5 ≤ i.ncols) (hpos : 0 < windowSum now i) :
    (get_a_dividend now (some i)).amount = some (round6 (windowSum now i / 10)) ∧
    (get_a_dividend now (some i)).error = none := by
  have hrec := windowSum_ne_nil hpos
  simp only [get_a_dividend]
  rw [if_neg hne, if_neg (by omega : ¬ i.ncols < 5), if_pos ⟨hrec, hpos⟩]
  exact ⟨rfl, rfl⟩

/-- C1 witness: the spec's synthetic history — a row 200 days ago paying 5
per 10 shares and a row 400 days ago paying 3 per 10 shares — yields 0.5
(only the in-window row is counted), not 0.8. -/
theorem get_a_dividend_window_witness :
    (get_a_dividend 1000
      (some ⟨[⟨some 800, some 5, none⟩, ⟨some 600, some 3, none⟩], 8⟩)).amount
      = some (1/2) := by
  have h := get_a_dividend_window 1000
    ⟨[⟨some 800, some 5, none⟩, ⟨some 600, some 3, none⟩], 8⟩
    (by simp) (by norm_num)
    (by norm_num [windowSum, inWindow, amt, List.filter])
  rw [h.1, round6_eq _ 500000 (by norm_num [windowSum, inWindow, amt, List.filter])]
  norm_num

/-- C2: for market A, when the trailing-365-day window is empty or sums to
0, `get_a_dividend` falls back to the per-10 sum of the first 2 rows of the
raw provider-ordered history, and returns it divided by 10 rounded to 6
decimals whenever that sum is positive. -/
theorem get_a_dividend_fallback (now : ℤ) (i : ADivInput)
    (hne : i.rows ≠ []) (hc : 5 ≤ i.ncols)
    (hwin : i.rows.filter (inWindow now) = [] ∨ windowSum now i = 0)
    (hpos : 0 < head2Sum i) :
    (get_a_dividend now (some i)).amount = some (round6 (head2Sum i / 10)) ∧
    (get_a_dividend now (some i)).error = none := by
  have hcond : ¬ (i.rows.filter (inWindow now) ≠ [] ∧ 0 < windowSum now i) := by
    rcases hwin with h | h
    · exact fun hc => hc.1 h
    · exact fun hc => absurd h (by simpa using ne_of_gt hc.2)
  simp only [get_a_dividend]
  rw [if_neg hne, if_neg (by omega : ¬ i.ncols < 5), if_neg hcond, if_pos hpos]
  exact ⟨rfl, rfl⟩

/-- C2 witness: every row is older than 365 days, the first two rows pay 4
and 2 per 10 shares; the result is (4+2)/10 = 0.6, not absent. -/
theorem get_a_dividend_fallback_witness :
    (get_a_dividend 1000
      (some ⟨[⟨some 100, some 4, none⟩, ⟨some 50, some 2, none⟩], 8⟩)).amount
      = some (3/5) := by
  have h := get_a_dividend_fallback 1000
    ⟨[⟨some 100, some 4, none⟩, ⟨some 50, some 2, none⟩], 8⟩
    (by simp) (by norm_num)
    (Or.inl (by norm_num [inWindow, List.filter]))
    (by norm_num [head2Sum, amt, List.take])
  rw [h.1, round6_eq _ 600000 (by norm_num [head2Sum, amt, List.take])]
  norm_num

theorem cashPayDates_of_all_zero {rows : List ARow}
    (hz : ∀ r ∈ rows, amt r = 0) : cashPayDates rows = [] := by
  have : rows.filter (fun r => 0 < amt r) = [] := by
    rw [List.filter_eq_nil_iff]
    intro r hr
    simp [hz r hr]
  rw [cashPayDates, this]
  rfl

theorem sum_amt_zero {l : List ARow} (hz : ∀ r ∈ l, amt r = 0) :
    (l.map amt).sum = 0 := by
  induction l with
  | nil => simp
  | cons a t ih =>
    simp only [List.map_cons, List.sum_cons]
    rw [hz a (by simp), ih (fun r hr => hz r (by simp [hr]))]
    norm_num

/-- C4: for market A, when every row of a non-empty well-formed history has
(coerced) amount 0, `get_a_dividend` returns an absent amount, an empty
date list, and the error string 近期现金分红金额为 0. -/
theorem get_a_dividend_all_zero (now : ℤ) (i : ADivInput)
    (hne : i.rows ≠ []) (hc : 5 ≤ i.ncols)
    (hz : ∀ r ∈ i.rows, amt r = 0) :
    get_a_dividend now (some i) = ⟨none, [], some "近期现金分红金额为 0"⟩ := by
  have hdates : datesOf i = [] := by
    rw [datesOf, cashPayDates_of_all_zero hz]
    simp [tail2rev]
  have hwin : windowSum now i = 0 :=
    sum_amt_zero (fun r hr => hz r (List.mem_of_mem_filter hr))
  have hhead : head2Sum i = 0 :=
    sum_amt_zero (fun r hr => hz r (List.mem_of_mem_take hr))
  simp only [get_a_dividend]
  rw [if_neg hne, if_neg (by omega : ¬ i.ncols < 5),
    if_neg (by rw [hwin]; exact fun hc => lt_irrefl 0 hc.2),
    if_neg (by rw [hhead]; exact lt_irrefl 0), hdates]

/-- C4 witness: a single well-formed row with a parseable payment date but
amount 0 yields (absent, [], 近期现金分红金额为 0). -/
theorem get_a_dividend_all_zero_witness :
    get_a_dividend 1000 (some ⟨[⟨some 900, some 0, some 950⟩], 8⟩)
      = ⟨none, [], some "近期现金分红金额为 0"⟩ := by
  exact get_a_dividend_all_zero 1000 ⟨[⟨some 900, some 0, some 950⟩], 8⟩
    (by simp) (by norm_num) (by intro r hr; simp at hr; simp [hr, amt])

/-- Evaluation rule for `pyFloat` on a capture of the form
`digits.digits`. -/
theorem pyFloat_eval (cs intPart fracPart : List Char)
    (h : cs.splitOn '.' = [intPart, fracPart])
    (hd : cs.any Char.isDigit = true) :
    pyFloat cs =
      some ((digitsVal intPart : ℚ) + (digitsVal fracPart : ℚ) / 10 ^ fracPart.length) := by
  unfold pyFloat
  rw [h]
  simp [hd]

/-- C3: the HK dividend text parser first extracts a number following the
HKD glyph (simplified or traditional), else a number following the payout
word, else yields 0; in particular
每股派息1.013元(相当于港币1.118595元) parses to 1.118595 and 派息0.5元
parses to 0.5. -/
theorem parse_hkd_spec :
    (∀ s cap, hkdScan s.toList = some cap → parse_hkd s = pyFloat cap) ∧
    (∀ s cap, hkdScan s.toList = none → paixiScan s.toList = some cap →
      parse_hkd s = pyFloat cap) ∧
    (∀ s, hkdScan s.toList = none → paixiScan s.toList = none →
      parse_hkd s = some 0) ∧
    parse_hkd "每股派息1.013元(相当于港币1.118595元)" = some (1118595/1000000) ∧
    parse_hkd "派息0.5元" = some (1/2) := by
  refine ⟨?_, ?_, ?_, ?_, ?_⟩
  · intro s cap h
    unfold parse_hkd
    rw [h]
  · intro s cap h1 h2
    unfold parse_hkd
    rw [h1, h2]
  · intro s h1 h2
    unfold parse_hkd
    rw [h1, h2]
  · have h1 : hkdScan ("每股派息1.013元(相当于港币1.118595元)").toList
        = some ['1', '.', '1', '1', '8', '5', '9', '5'] := by decide
    unfold parse_hkd
    rw [h1]
    show pyFloat ['1', '.', '1', '1', '8', '5', '9', '5'] = some (1118595 / 1000000)
    rw [pyFloat_eval _ ['1'] ['1', '1', '8', '5', '9', '5'] (by decide) (by decide),
      show digitsVal ['1'] = 1 from by decide,
      show digitsVal ['1', '1', '8', '5', '9', '5'] = 118595 from by decide]
    norm_num
  · have h1 : hkdScan ("派息0.5元").toList = none := by decide
    have h2 : paixiScan ("派息0.5元").toList = some ['0', '.', '5'] := by decide
    unfold parse_hkd
    rw [h1, h2]
    show pyFloat ['0', '.', '5'] = some (1 / 2)
    rw [pyFloat_eval _ ['0'] ['5'] (by decide) (by decide),
      show digitsVal ['0'] = 0 from by decide,
      show digitsVal ['5'] = 5 from by decide]
    norm_num

/-- C3 witness: the priority clauses of `parse_hkd_spec` instantiated at
concrete strings — a string with neither pattern parses to 0, and the two
spec examples parse to 1.118595 and 0.5. -/
theorem parse_hkd_spec_witness :
    parse_hkd "以股代息" = some 0 ∧
    parse_hkd "每股派息1.013元(相当于港币1.118595元)" = some (1118595/1000000) ∧
    parse_hkd "派息0.5元" = some (1/2) :=
  ⟨parse_hkd_spec.2.2.1 "以股代息" (by decide) (by decide),
   parse_hkd_spec.2.2.2.1, parse_hkd_spec.2.2.2.2⟩

theorem get_a_dividend_dates_eq (now : ℤ) (i : ADivInput)
    (hne : i.rows ≠ []) (hc : 5 ≤ i.ncols) :
    (get_a_dividend now (some i)).dates = datesOf i := by
  simp only [get_a_dividend]
  rw [if_neg hne, if_neg (by omega : ¬ i.ncols < 5)]
  split
  · rfl
  split
  · rfl
  · rfl

/-- C8 counterexample: a history whose provider rows carry payment dates in
descending order — row 1 pays on day 700, row 2 on day 300, both with
positive amounts.  The code keeps the positionally-last 2 and reverses, so
it outputs [300, 700] (oldest first), while the claim's
last-2-chronologically-most-recent-first reading demands [700, 300]. -/
theorem get_a_dividend_dates_counterexample :
    (get_a_dividend 1000
      (some ⟨[⟨some 900, some 1, some 700⟩, ⟨some 950, some 1, some 300⟩], 8⟩)).dates
      = [300, 700] ∧
    claimedDates [⟨some 900, some 1, some 700⟩, ⟨some 950, some 1, some 300⟩]
      = [700, 300] ∧
    ([300, 700] : List ℤ) ≠ [700, 300] := by
  refine ⟨?_, by decide, by decide⟩
  rw [get_a_dividend_dates_eq 1000 _ (by simp) (by norm_num)]
  decide

/-- C8 amended: the recent-dates output restricts to rows with positive
per-10-units amount, parses their payment dates dropping unparsable ones,
keeps the last 2 in provider row order, and reverses them (length at most
2); when the provider rows are chronologically ascending this coincides
with the last 2 chronologically, most-recent-first. -/
theorem get_a_dividend_dates_amended (now : ℤ) (i : ADivInput)
    (hne : i.rows ≠ []) (hc : 7 < i.ncols) :
    (get_a_dividend now (some i)).dates = tail2rev (cashPayDates i.rows) ∧
    (get_a_dividend now (some i)).dates.length ≤ 2 ∧
    ((cashPayDates i.rows).Sorted (· ≤ ·) →
      (get_a_dividend now (some i)).dates = claimedDates i.rows) := by
  have h1 : (get_a_dividend now (some i)).dates = tail2rev (cashPayDates i.rows) := by
    rw [get_a_dividend_dates_eq now i hne (by omega), datesOf, if_pos hc]
  refine ⟨h1, ?_, ?_⟩
  · rw [h1, tail2rev]
    simp only [List.length_reverse, List.length_drop]
    omega
  · intro hs
    rw [h1, claimedDates, hs.insertionSort_eq]

/-- C8 witness: with provider rows ascending by payment date (300 then
700), the output is [700, 300] — most recent first. -/
theorem get_a_dividend_dates_amended_witness :
    (get_a_dividend 1000
      (some ⟨[⟨some 900, some 1, some 300⟩, ⟨some 950, some 2, some 700⟩], 8⟩)).dates
      = [700, 300] := by
  have h := get_a_dividend_dates_amended 1000
    ⟨[⟨some 900, some 1, some 300⟩, ⟨some 950, some 2, some 700⟩], 8⟩
    (by simp) (by norm_num)
  rw [h.2.2 (by decide)]
  decide

/-- C9 counterexample: a cache row whose code is exactly the query but
whose name does not contain it.  Market A's rule matches it; the HK cached
name search does not, so the two rules are not the same. -/
theorem hk_cache_match_counterexample :
    hk_cache_match [⟨"00005", "汇丰控股"⟩] "00005" = none ∧
    a_cache_match [⟨"00005", "汇丰控股"⟩] "00005" = some ⟨"00005", "汇丰控股"⟩ := by
  decide

/-- C9 amended: the HK cached name search matches rows only by
name-containment (case-sensitive substring), first match in cache order,
with no code-equality clause; market A's rule is exactly the HK rule plus
exact code equality, so every HK match is also an A match. -/
theorem hk_cache_match_amended (cache : List CacheEntry) (query : String) :
    (∀ row, a_match query row = (decide (row.code = query) || hk_match query row)) ∧
    hk_cache_match cache query
      = cache.find? (fun row => lcHas query.toList row.name.toList) ∧
    (∀ row, hk_match query row = true → a_match query row = true) := by
  refine ⟨fun row => rfl, rfl, fun row h => ?_⟩
  simp only [a_match, hk_match] at h ⊢
  rw [h, Bool.or_true]

/-- C9 witness: a name query matches the same row under both rules. -/
theorem hk_cache_match_amended_witness :
    a_match "汇丰" ⟨"00005", "汇丰控股"⟩ = true ∧
    hk_cache_match [⟨"00005", "汇丰控股"⟩] "汇丰" = some ⟨"00005", "汇丰控股"⟩ :=
  ⟨(hk_cache_match_amended [⟨"00005", "汇丰控股"⟩] "汇丰").2.2 _ (by decide),
   by decide⟩

/-- C7: the cache is valid iff now minus the artifact's mtime is strictly
below 24 hours.  A younger artifact is deserialized and returned with no
upstream fetch; an older or missing artifact triggers exactly one upstream
refetch (for HK, with the first snapshot endpoint answering) whose result
is persisted and returned. -/
theorem load_cache_ttl (now mtime : ℤ) (content fetch : List CacheEntry)
    (f2 : Option (List CacheEntry)) :
    (now - mtime < 24 * 3600 →
      load_a_cache now (some (mtime, content)) fetch
        = (content, some (mtime, content), 0) ∧
      load_hk_cache now (some (mtime, content)) (some fetch) f2
        = (content, some (mtime, content), 0)) ∧
    (24 * 3600 ≤ now - mtime →
      load_a_cache now (some (mtime, content)) fetch
        = (fetch, some (now, fetch), 1) ∧
      load_hk_cache now (some (mtime, content)) (some fetch) f2
        = (fetch, some (now, fetch), 1)) ∧
    (load_a_cache now none fetch = (fetch, some (now, fetch), 1) ∧
      load_hk_cache now none (some fetch) f2 = (fetch, some (now, fetch), 1)) := by
  refine ⟨fun h => ⟨?_, ?_⟩, fun h => ⟨?_, ?_⟩, rfl, rfl⟩
  · simp only [load_a_cache]
    rw [if_pos (show now - mtime < CACHE_TTL from h)]
  · simp only [load_hk_cache]
    rw [if_pos (show now - mtime < CACHE_TTL from h)]
  · simp only [load_a_cache]
    rw [if_neg (show ¬ now - mtime < CACHE_TTL from not_lt.mpr h)]
  · simp only [load_hk_cache]
    rw [if_neg (show ¬ now - mtime < CACHE_TTL from not_lt.mpr h)]
    rfl

/-- C7 witness: an artifact aged 23 hours is reused with no fetch; one aged
25 hours triggers exactly one fetch, persisted and returned. -/
theorem load_cache_ttl_witness :
    load_a_cache (23 * 3600) (some (0, [⟨"600000", "浦发银行"⟩])) [⟨"000001", "平安银行"⟩]
      = ([⟨"600000", "浦发银行"⟩], some (0, [⟨"600000", "浦发银行"⟩]), 0) ∧
    load_a_cache (25 * 3600) (some (0, [⟨"600000", "浦发银行"⟩])) [⟨"000001", "平安银行"⟩]
      = ([⟨"000001", "平安银行"⟩], some (25 * 3600, [⟨"000001", "平安银行"⟩]), 1) :=
  ⟨((load_cache_ttl (23 * 3600) 0 [⟨"600000", "浦发银行"⟩] [⟨"000001", "平安银行"⟩] none).1
      (by norm_num)).1,
   ((load_cache_ttl (25 * 3600) 0 [⟨"600000", "浦发银行"⟩] [⟨"000001", "平安银行"⟩] none).2.1
      (by norm_num)).1⟩

/-- C6 counterexample: the spot source fails and the bank frame has a
mid-rate column whose latest value is 0.92 (not quoted per 100 units).  The
claim's reading returns 0.92; the code skips any value of at most 10 and
falls through to the 0.924 default. -/
theorem get_hkd_cny_rate_counterexample :
    get_hkd_cny_rate none (some [⟨"中间价", some (23/25)⟩]) = 231/250 ∧
    claimed_boc_scan [⟨"中间价", some (23/25)⟩] = some (23/25) ∧
    (231/250 : ℚ) ≠ 23/25 := by
  have hhdr : lcHas "中间价".toList ("中间价").toList = true := by decide
  have h10 : ¬ (10 < (23/25 : ℚ)) := by norm_num
  refine ⟨?_, ?_, by norm_num⟩
  · have hb : boc_scan [⟨"中间价", some (23/25)⟩] = none := by
      rw [boc_scan, if_pos (Or.inl hhdr)]
      show (if 10 < (23/25 : ℚ) then some (round6 (23/25 / 100)) else boc_scan []) = none
      rw [if_neg h10]
      rfl
    simp [get_hkd_cny_rate, hb]
  · have hc : claimed_boc_scan [⟨"中间价", some (23/25)⟩]
        = some (round6 (23/25)) := by
      show some (round6 (if 10 < (23/25 : ℚ) then 23/25 / 100 else 23/25))
        = some (round6 (23/25))
      rw [if_neg h10]
    rw [hc, round6_eq _ 920000 (by norm_num)]
    norm_num

/-- C6 amended: `get_hkd_cny_rate` never fails: it returns the first
spot-quote value parseable as a float within [0.5, 1.5] (rounded to 6
decimals) when the spot scan yields one; otherwise the first
mid-rate/benchmark bank column whose latest value exceeds 10, divided by
100 and rounded to 6 decimals — a column whose value is at most 10 or
non-numeric is skipped, not returned; and exactly 0.924 when both live
sources yield nothing. -/
theorem get_hkd_cny_rate_amended (spot : Option (List (List FxCell)))
    (bank : Option (List BankCol)) :
    (∀ r, spot.bind fx_spot_scan = some r → get_hkd_cny_rate spot bank = r) ∧
    (spot.bind fx_spot_scan = none → ∀ r, bank.bind boc_scan = some r →
      get_hkd_cny_rate spot bank = r) ∧
    (spot.bind fx_spot_scan = none → bank.bind boc_scan = none →
      get_hkd_cny_rate spot bank = 231/250) ∧
    (∀ hdr v, get_hkd_cny_rate none (some [⟨hdr, some v⟩]) =
      if (lcHas "中间价".toList hdr.toList = true ∨
          lcHas "基准价".toList hdr.toList = true) ∧ 10 < v then
        round6 (v / 100)
      else 231/250) := by
  refine ⟨?_, ?_, ?_, ?_⟩
  · intro r h
    simp [get_hkd_cny_rate, h]
  · intro h1 r h2
    simp [get_hkd_cny_rate, h1, h2]
  · intro h1 h2
    simp [get_hkd_cny_rate, h1, h2]
  · intro hdr v
    have hb : boc_scan [⟨hdr, some v⟩] =
        if (lcHas "中间价".toList hdr.toList = true ∨
            lcHas "基准价".toList hdr.toList = true) ∧ 10 < v then
          some (round6 (v / 100))
        else none := by
      by_cases hcond : lcHas "中间价".toList hdr.toList = true ∨
          lcHas "基准价".toList hdr.toList = true
      · rw [boc_scan, if_pos hcond]
        by_cases h10 : 10 < v
        · rw [if_pos ⟨hcond, h10⟩]
          show (if 10 < v then some (round6 (v / 100)) else boc_scan []) = _
          rw [if_pos h10]
        · rw [if_neg (fun hh => h10 hh.2)]
          show (if 10 < v then some (round6 (v / 100)) else boc_scan []) = none
          rw [if_neg h10]
          rfl
      · rw [boc_scan, if_neg hcond, if_neg (fun hh => hcond hh.1)]
        rfl
    rw [show get_hkd_cny_rate none (some [⟨hdr, some v⟩]) =
        (match boc_scan [⟨hdr, some v⟩] with
          | some r => r
          | none => (231/250 : ℚ)) from rfl, hb]
    by_cases hg : (lcHas "中间价".toList hdr.toList = true ∨
        lcHas "基准价".toList hdr.toList = true) ∧ 10 < v
    · rw [if_pos hg, if_pos hg]
    · rw [if_neg hg, if_neg hg]

/-- C6 witness: both live sources fail and the code returns exactly
0.924. -/
theorem get_hkd_cny_rate_amended_witness :
    get_hkd_cny_rate none none = 231/250 :=
  (get_hkd_cny_rate_amended none none).2.2.1 rfl rfl

/-- C10: a query that is blank after stripping whitespace yields the 400
bad-request prompt asking for a name or code, for any market and without
consulting the resolver, dividend, or rate collaborators (the result does
not depend on them). -/
theorem search_stock_blank_query (searchA searchHK : String → Option StockInfo)
    (getADiv getHKDiv : String → Option ℚ × List String × String)
    (getRate : ℚ) (query market : String) (h : pyStrip query = "") :
    search_stock searchA searchHK getADiv getHKDiv getRate query market
      = .badRequest "请输入股票名称或代码" := by
  simp [search_stock, h]

/-- C10 witness: a whitespace-only query is rejected with the prompt. -/
theorem search_stock_blank_query_witness :
    search_stock (fun _ => none) (fun _ => none) (fun _ => (none, [], ""))
      (fun _ => (none, [], "")) 1 "   " "A"
      = .badRequest "请输入股票名称或代码" :=
  search_stock_blank_query _ _ _ _ 1 "   " "A" (by decide)

/-- C5: not-found handling is asymmetric.  For a market-A query whose
resolution returns not-found, `search_stock` appends a non-fatal error and
still runs the dividend lookup on the (stripped) raw query as symbol,
returning a populated result; for an HK query whose resolution returns
not-found, it short-circuits to a request-level error object whose value is
independent of the dividend and rate collaborators. -/
theorem search_stock_notfound_asymmetry
    (searchA searchHK : String → Option StockInfo)
    (getADiv getHKDiv : String → Option ℚ × List String × String)
    (getRate : ℚ) (query : String) (hq : ¬ pyStrip query = "")
    (hA : searchA (pyStrip query) = none) (hHK : searchHK (pyStrip query) = none) :
    (∃ r : QueryResult,
      search_stock searchA searchHK getADiv getHKDiv getRate query "A" = .ok r ∧
      r.symbol = pyStrip query ∧
      r.dividend = (getADiv (pyStrip query)).1 ∧
      r.dividend_dates = (getADiv (pyStrip query)).2.1 ∧
      ("未找到 A 股: " ++ pyStrip query ++ "，将以代码方式尝试获取分红") ∈ r.errors) ∧
    search_stock searchA searchHK getADiv getHKDiv getRate query "HK"
      = .err ("未找到港股「" ++ pyStrip query ++ "」，请输入股票代码（如 03968）") := by
  constructor
  · rcases hdiv : getADiv (pyStrip query) with ⟨d, dates, msg⟩
    cases d with
    | some dv =>
      have hred : search_stock searchA searchHK getADiv getHKDiv getRate query "A"
          = .ok ⟨pyStrip query, "", "A", none, some dv, dates, "CNY", none,
              ["未找到 A 股: " ++ pyStrip query ++ "，将以代码方式尝试获取分红"]⟩ := by
        simp [search_stock, hq, hA, hdiv]
      exact ⟨_, hred, rfl, rfl, rfl, by simp⟩
    | none =>
      have hred : search_stock searchA searchHK getADiv getHKDiv getRate query "A"
          = .ok ⟨pyStrip query, "", "A", none, none, dates, "CNY", none,
              ["未找到 A 股: " ++ pyStrip query ++ "，将以代码方式尝试获取分红",
               "分红获取失败: " ++ msg]⟩ := by
        simp [search_stock, hq, hA, hdiv]
      exact ⟨_, hred, rfl, rfl, rfl, by simp⟩
  · simp [search_stock, hq, hHK]

/-- C5 witness: with failing resolvers and a dividend oracle returning
1 with one date, a market-A query still yields a populated result carrying
the raw query as symbol, while the HK query yields the request-level error
object. -/
theorem search_stock_notfound_asymmetry_witness :
    (∃ r : QueryResult,
      search_stock (fun _ => none) (fun _ => none)
        (fun _ => (some 1, ["2024-01-01"], "")) (fun _ => (none, [], "e")) 1
        "600000" "A" = .ok r ∧
      r.symbol = pyStrip "600000" ∧
      r.dividend = ((fun _ : String => ((some 1 : Option ℚ), ["2024-01-01"], "")) (pyStrip "600000")).1 ∧
      r.dividend_dates
        = ((fun _ : String => ((some 1 : Option ℚ), ["2024-01-01"], "")) (pyStrip "600000")).2.1 ∧
      ("未找到 A 股: " ++ pyStrip "600000" ++ "，将以代码方式尝试获取分红") ∈ r.errors) ∧
    search_stock (fun _ => none) (fun _ => none)
      (fun _ => (some 1, ["2024-01-01"], "")) (fun _ => (none, [], "e")) 1
      "600000" "HK"
      = .err ("未找到港股「" ++ pyStrip "600000" ++ "」，请输入股票代码（如 03968）") :=
  search_stock_notfound_asymmetry (fun _ => none) (fun _ => none)
    (fun _ => (some 1, ["2024-01-01"], "")) (fun _ => (none, [], "e")) 1
    "600000" (by decide) rfl rfl
